import Mathlib

/-!
Verification of the error-definition module of the repository
(`src/types-global/errors.ts`): the `BaseErrorCode` registry, the
`McpError` carrier class with its `toResponse` rendering method, and the
zod `ErrorSchema` shape validator. JavaScript values that may appear in
an error's `details` record or in an untrusted payload are embedded as
the inductive type `JSValue` (JSON-serializable values plus `undefined`);
`JSON.stringify(-, null, 2)` is embedded as `serialize`, following the
ECMA-262 serialization algorithm with a two-space gap.
-/

namespace McpErrors

/-- The `BaseErrorCode` enum of `errors.ts`: a closed set of eleven
standardized error codes, each carrying its own name as string value. -/
inductive BaseErrorCode where
  | UNAUTHORIZED
  | FORBIDDEN
  | NOT_FOUND
  | CONFLICT
  | VALIDATION_ERROR
  | RATE_LIMITED
  | TIMEOUT
  | SERVICE_UNAVAILABLE
  | INTERNAL_ERROR
  | UNKNOWN_ERROR
  | CONFIGURATION_ERROR
deriving DecidableEq

/-- The string value each `BaseErrorCode` enum member carries in the
source (`UNAUTHORIZED = 'UNAUTHORIZED'`, ...). -/
def codeStr : BaseErrorCode → String
  | .UNAUTHORIZED => "UNAUTHORIZED"
  | .FORBIDDEN => "FORBIDDEN"
  | .NOT_FOUND => "NOT_FOUND"
  | .CONFLICT => "CONFLICT"
  | .VALIDATION_ERROR => "VALIDATION_ERROR"
  | .RATE_LIMITED => "RATE_LIMITED"
  | .TIMEOUT => "TIMEOUT"
  | .SERVICE_UNAVAILABLE => "SERVICE_UNAVAILABLE"
  | .INTERNAL_ERROR => "INTERNAL_ERROR"
  | .UNKNOWN_ERROR => "UNKNOWN_ERROR"
  | .CONFIGURATION_ERROR => "CONFIGURATION_ERROR"

/-- JavaScript runtime values as they matter to this module: the
JSON-serializable kinds plus `undefined`. Objects are association lists
of string keys in insertion order (JS objects have unique keys; numeric
values are restricted to integers, which is all the spec exercises). -/
inductive JSValue where
  | jsNull
  | undef
  | bool (b : Bool)
  | num (n : Int)
  | str (s : String)
  | arr (items : List JSValue)
  | obj (fields : List (String × JSValue))

/-- Lowercase hexadecimal digit, as used by `JSON.stringify` in
`\u00XX` escapes of control characters. -/
def hexDigit (n : Nat) : Char :=
  if n < 10 then Char.ofNat (48 + n) else Char.ofNat (87 + n)

/-- Escape of a single character inside a JSON string literal,
following the ECMA-262 `QuoteJSONString` algorithm. -/
def escapeJSONChar (c : Char) : String :=
  if c = '"' then "\\\""
  else if c = '\\' then "\\\\"
  else if c = '\x08' then "\\b"
  else if c = '\x0c' then "\\f"
  else if c = '\n' then "\\n"
  else if c = '\r' then "\\r"
  else if c = '\t' then "\\t"
  else if c.toNat < 32 then
    "\\u00" ++ String.singleton (hexDigit (c.toNat / 16))
      ++ String.singleton (hexDigit (c.toNat % 16))
  else String.singleton c

/-- `QuoteJSONString`: a JSON string literal with surrounding quotes. -/
def quoteJSONString (s : String) : String :=
  "\"" ++ String.join (s.toList.map escapeJSONChar) ++ "\""

mutual

/-- `JSON.stringify(v, null, 2)` at nesting level `indent`, following
ECMA-262 `SerializeJSONProperty` with gap `"  "`. Returns `none` exactly
where `JSON.stringify` returns `undefined` (the value is `undefined`). -/
def serialize (indent : String) : JSValue → Option String
  | .undef => none
  | .jsNull => some "null"
  | .bool b => some (if b then "true" else "false")
  | .num n => some (toString n)
  | .str s => some (quoteJSONString s)
  | .arr items =>
    some (match items with
      | [] => "[]"
      | _ =>
        "[\n" ++ String.intercalate ",\n" (serializeItems (indent ++ "  ") items)
          ++ "\n" ++ indent ++ "]")
  | .obj fields =>
    some (match serializeMembers (indent ++ "  ") fields with
      | [] => "\x7b\x7d"
      | ms => "\x7b\n" ++ String.intercalate ",\n" ms ++ "\n" ++ indent ++ "\x7d")

/-- `SerializeJSONArray` members: an `undefined` element renders as
`null`. -/
def serializeItems (indent : String) : List JSValue → List String
  | [] => []
  | v :: vs => (indent ++ (serialize indent v).getD "null") :: serializeItems indent vs

/-- `SerializeJSONObject` members: an entry whose value is `undefined`
is skipped. -/
def serializeMembers (indent : String) : List (String × JSValue) → List String
  | [] => []
  | (k, v) :: rest =>
    match serialize indent v with
    | none => serializeMembers indent rest
    | some s => (indent ++ quoteJSONString k ++ ": " ++ s) :: serializeMembers indent rest

end

/-- Top-level `JSON.stringify(v, null, 2)` as interpolated into a JS
template literal (a top-level `undefined` would interpolate as the text
`undefined`; unreachable for the object-typed `details`). -/
def jsonStringify (v : JSValue) : String :=
  (serialize "" v).getD "undefined"

/-- The `McpContent` item shape used by `toResponse`. -/
structure McpContent where
  type : String
  text : String
deriving DecidableEq

/-- The `McpToolResponse` envelope returned by `toResponse`. -/
structure McpToolResponse where
  content : List McpContent
  isError : Bool
deriving DecidableEq

/-- The `McpError` class: the `Error` superclass's `name` field (set to
`'McpError'` by the constructor) together with the declared fields
`code`, `message` and the optional `details` record. -/
structure McpError where
  name : String
  code : BaseErrorCode
  message : String
  details : Option (List (String × JSValue))

/-- The `McpError` constructor: stores `code`, `message`, `details`
and sets `name` to `'McpError'`. It performs no checks and never
fails. -/
def mkMcpError (code : BaseErrorCode) (message : String)
    (details : Option (List (String × JSValue))) : McpError :=
  ⟨"McpError", code, message, details⟩

/-- The `errorText` template literal built inside `toResponse`:
`Error [<code>]: <message>` followed, when `this.details` is truthy
(any object, including the empty one, is truthy; only `undefined` is
falsy here), by a newline, `Details: ` and
`JSON.stringify(this.details, null, 2)`. -/
def errorText (e : McpError) : String :=
  "Error [" ++ codeStr e.code ++ "]: " ++ e.message ++
    (match e.details with
     | some d => "\nDetails: " ++ jsonStringify (.obj d)
     | none => "")

/-- `McpError.toResponse`: one text content item holding `errorText`,
with `isError: true`. -/
def McpError.toResponse (e : McpError) : McpToolResponse :=
  ⟨[⟨"text", errorText e⟩], true⟩

/-- `toResponse` as a state-passing method: the method body contains no
assignment to `this` or to anything reachable from it, so the post-call
object state is the pre-call object state. -/
def McpError.toResponseS (e : McpError) : McpToolResponse × McpError :=
  (e.toResponse, e)

/-- A zod issue, reduced to what the claims exercise: the path of the
offending field (empty for the root value) and the issue code
(`invalid_type`, `invalid_enum_value`). -/
structure ZodIssue where
  path : List String
  kind : String
deriving DecidableEq

/-- The output type of `ErrorSchema.parse`: exactly the three schema
keys (zod strips unrecognized keys by default). -/
structure ErrorResponse where
  code : BaseErrorCode
  message : String
  details : Option (List (String × JSValue))

/-- Membership test of `z.nativeEnum(BaseErrorCode)`: a string is
accepted exactly when it is one of the eleven enum values. -/
def codeOfString : String → Option BaseErrorCode
  | "UNAUTHORIZED" => some .UNAUTHORIZED
  | "FORBIDDEN" => some .FORBIDDEN
  | "NOT_FOUND" => some .NOT_FOUND
  | "CONFLICT" => some .CONFLICT
  | "VALIDATION_ERROR" => some .VALIDATION_ERROR
  | "RATE_LIMITED" => some .RATE_LIMITED
  | "TIMEOUT" => some .TIMEOUT
  | "SERVICE_UNAVAILABLE" => some .SERVICE_UNAVAILABLE
  | "INTERNAL_ERROR" => some .INTERNAL_ERROR
  | "UNKNOWN_ERROR" => some .UNKNOWN_ERROR
  | "CONFIGURATION_ERROR" => some .CONFIGURATION_ERROR
  | _ => none

/-- The `code` field check, `z.nativeEnum(BaseErrorCode)`: a missing or
`undefined` value is an `invalid_type` issue; a string or number not
among the enum values is `invalid_enum_value`; other kinds are
`invalid_type`. -/
def parseCodeField : Option JSValue → Except ZodIssue BaseErrorCode
  | none => .error ⟨["code"], "invalid_type"⟩
  | some .undef => .error ⟨["code"], "invalid_type"⟩
  | some (.str s) =>
    match codeOfString s with
    | some c => .ok c
    | none => .error ⟨["code"], "invalid_enum_value"⟩
  | some (.num _) => .error ⟨["code"], "invalid_enum_value"⟩
  | some _ => .error ⟨["code"], "invalid_type"⟩

/-- The `message` field check, `z.string()`: anything but a string
(including a missing or `undefined` value) is an `invalid_type` issue. -/
def parseMessageField : Option JSValue → Except ZodIssue String
  | some (.str s) => .ok s
  | _ => .error ⟨["message"], "invalid_type"⟩

/-- The `details` field check, `z.record(z.unknown()).optional()`: a
missing or `undefined` value parses to `none`; otherwise the value must
be a plain object (null, arrays and primitives are `invalid_type`);
record values are unconstrained. -/
def parseDetailsField :
    Option JSValue → Except ZodIssue (Option (List (String × JSValue)))
  | none => .ok none
  | some .undef => .ok none
  | some (.obj fields) => .ok (some fields)
  | some _ => .error ⟨["details"], "invalid_type"⟩

/-- The issues contributed by one field result. -/
def issuesOf {α : Type} : Except ZodIssue α → List ZodIssue
  | .ok _ => []
  | .error i => [i]

/-- `ErrorSchema.safeParse`: the root value must be a plain object
(null, arrays and primitives fail at the root with `invalid_type`);
then the three schema fields are checked in declaration order, all
issues are collected, and on success the parsed record holds exactly
the schema keys. -/
def parseErrorSchema (v : JSValue) : Except (List ZodIssue) ErrorResponse :=
  match v with
  | .obj fields =>
    match parseCodeField (List.lookup "code" fields),
        parseMessageField (List.lookup "message" fields),
        parseDetailsField (List.lookup "details" fields) with
    | .ok c, .ok m, .ok d => .ok ⟨c, m, d⟩
    | rc, rm, rd => .error (issuesOf rc ++ issuesOf rm ++ issuesOf rd)
  | _ => .error [⟨[], "invalid_type"⟩]

/-- Whether `ErrorSchema` accepts a value. -/
def accepted (v : JSValue) : Bool :=
  match parseErrorSchema v with
  | .ok _ => true
  | .error _ => false

/-- Modelled from the spec's words (§4.3, check 2): the `code` field
value is exactly one member of the ErrorCode registry. -/
def specCodeOk (x : Option JSValue) : Bool :=
  match x with
  | some (.str s) => (codeOfString s).isSome
  | _ => false

/-- Modelled from the spec's words (§4.3, check 3): the `message` field
exists and is a string. -/
def specMessageOk (x : Option JSValue) : Bool :=
  match x with
  | some (.str _) => true
  | _ => false

/-- Modelled from the spec's words (§4.3, check 4): the `details`
field, if present, is a mapping with string keys and unconstrained
values (a field holding `undefined` counts as absent, as in JS). -/
def specDetailsOk (x : Option JSValue) : Bool :=
  match x with
  | none => true
  | some .undef => true
  | some (.obj _) => true
  | _ => false

/-- Modelled from the spec's words (§4.3): the value is accepted iff it
is an object (not null, not a primitive, not an array) passing the
three field checks. -/
def specValidShape (v : JSValue) : Bool :=
  match v with
  | .obj fields =>
    specCodeOk (List.lookup "code" fields)
      && specMessageOk (List.lookup "message" fields)
      && specDetailsOk (List.lookup "details" fields)
  | _ => false

/-- The `{code, message, details}` field set of a `McpError`, as the JS
object a caller would form from the error's own fields (the round-trip
object of the spec's §8). -/
def toJS (e : McpError) : JSValue :=
  .obj (("code", .str (codeStr e.code)) :: ("message", .str e.message) ::
    (match e.details with
     | some d => [("details", .obj d)]
     | none => []))

/-- Whether one field result is issue-free. -/
def fieldOk {α : Type} : Except ZodIssue α → Bool
  | .ok _ => true
  | .error _ => false

lemma codeOfString_codeStr (c : BaseErrorCode) : codeOfString (codeStr c) = some c := by
  cases c <;> rfl

lemma accepted_obj (fs : List (String × JSValue)) :
    accepted (.obj fs) =
      (fieldOk (parseCodeField (List.lookup "code" fs))
        && fieldOk (parseMessageField (List.lookup "message" fs))
        && fieldOk (parseDetailsField (List.lookup "details" fs))) := by
  cases h1 : parseCodeField (List.lookup "code" fs) <;>
    cases h2 : parseMessageField (List.lookup "message" fs) <;>
      cases h3 : parseDetailsField (List.lookup "details" fs) <;>
        simp [accepted, parseErrorSchema, h1, h2, h3, fieldOk]

lemma fieldOk_code (x : Option JSValue) :
    fieldOk (parseCodeField x) = specCodeOk x := by
  match x with
  | none => rfl
  | some .jsNull => rfl
  | some .undef => rfl
  | some (.bool b) => rfl
  | some (.num n) => rfl
  | some (.arr items) => rfl
  | some (.obj fields) => rfl
  | some (.str s) =>
    dsimp [parseCodeField, specCodeOk]
    cases h : codeOfString s <;> simp [h, fieldOk]

lemma fieldOk_message (x : Option JSValue) :
    fieldOk (parseMessageField x) = specMessageOk x := by
  match x with
  | none => rfl
  | some .jsNull => rfl
  | some .undef => rfl
  | some (.bool b) => rfl
  | some (.num n) => rfl
  | some (.arr items) => rfl
  | some (.obj fields) => rfl
  | some (.str s) => rfl

lemma fieldOk_details (x : Option JSValue) :
    fieldOk (parseDetailsField x) = specDetailsOk x := by
  match x with
  | none => rfl
  | some .jsNull => rfl
  | some .undef => rfl
  | some (.bool b) => rfl
  | some (.num n) => rfl
  | some (.arr items) => rfl
  | some (.obj fields) => rfl
  | some (.str s) => rfl

lemma parse_error_nonempty (v : JSValue) (issues : List ZodIssue)
    (h : parseErrorSchema v = .error issues) : issues ≠ [] := by
  cases v with
  | obj fs =>
    cases h1 : parseCodeField (List.lookup "code" fs) <;>
      cases h2 : parseMessageField (List.lookup "message" fs) <;>
        cases h3 : parseDetailsField (List.lookup "details" fs) <;>
          simp only [parseErrorSchema, h1, h2, h3, issuesOf] at h <;>
            first
              | (injection h with h; subst h; simp)
              | injection h
  | jsNull => simp only [parseErrorSchema] at h; injection h with h; subst h; simp
  | undef => simp only [parseErrorSchema] at h; injection h with h; subst h; simp
  | bool b => simp only [parseErrorSchema] at h; injection h with h; subst h; simp
  | num n => simp only [parseErrorSchema] at h; injection h with h; subst h; simp
  | str s => simp only [parseErrorSchema] at h; injection h with h; subst h; simp
  | arr items => simp only [parseErrorSchema] at h; injection h with h; subst h; simp

/-- C1, counterexample: the claim says the `Details:` block appears iff
`details` is present AND non-empty, so at an error with present-but-empty
details it predicts the bare text `Error [NOT_FOUND]: missing widget`;
the code branches on mere truthiness of `this.details`, so the rendered
text carries a `Details: \x7b\x7d` block and differs from the predicted
string. -/
theorem render_empty_details_blocks_claim :
    (mkMcpError .NOT_FOUND "missing widget" (some [])).toResponse.content
        = [⟨"text", "Error [NOT_FOUND]: missing widget\nDetails: \x7b\x7d"⟩]
      ∧ ("Error [NOT_FOUND]: missing widget\nDetails: \x7b\x7d" : String)
        ≠ "Error [NOT_FOUND]: missing widget" :=
  ⟨rfl, by decide⟩

/-- C1, amended: `Render().content[0].text` equals
`Error [<code>]: <message>` followed, iff `details` is present (whether
or not it is empty), by a newline, `Details: ` and the details mapping
pretty-printed with 2-space indentation in insertion key order; when
`details` is absent the text is exactly `Error [<code>]: <message>`.
The spec's own two examples are included. -/
theorem render_text_format :
    (∀ e : McpError,
      e.toResponse.content
        = [⟨"text",
            "Error [" ++ codeStr e.code ++ "]: " ++ e.message ++
              (match e.details with
               | some d => "\nDetails: " ++ jsonStringify (.obj d)
               | none => "")⟩])
    ∧ (mkMcpError .NOT_FOUND "missing widget" none).toResponse.content
        = [⟨"text", "Error [NOT_FOUND]: missing widget"⟩]
    ∧ (mkMcpError .VALIDATION_ERROR "bad field"
          (some [("field", .str "name")])).toResponse.content
        = [⟨"text",
            "Error [VALIDATION_ERROR]: bad field\nDetails: \x7b\n  \"field\": \"name\"\n\x7d"⟩] := by
  refine ⟨fun e => ?_, rfl, rfl⟩
  cases e with
  | mk n c m d => cases d <;> rfl

/-- C2: `ErrorSchema` accepts a value iff it is an object whose `code`
is exactly one of the eleven registry strings, whose `message` is a
string, and whose `details`, when present, is a string-keyed mapping;
in particular the two `TIMEOUT` examples are accepted. -/
theorem validate_iff_shape :
    (∀ v : JSValue, accepted v = specValidShape v)
    ∧ accepted (.obj [("code", .str "TIMEOUT"),
        ("message", .str "deadline exceeded")]) = true
    ∧ accepted (.obj [("code", .str "TIMEOUT"),
        ("message", .str "deadline exceeded"),
        ("details", .obj [("retryAfterMs", .num 500)])]) = true := by
  refine ⟨fun v => ?_, rfl, rfl⟩
  cases v with
  | obj fs =>
    rw [accepted_obj, fieldOk_code, fieldOk_message, fieldOk_details]
    rfl
  | jsNull => rfl
  | undef => rfl
  | bool b => rfl
  | num n => rfl
  | str s => rfl
  | arr items => rfl

/-- C3: for every code, message and optional details, `toResponse`
returns a one-element content list whose only item has type `text`,
and `isError` is unconditionally `true`. -/
theorem toResponse_shape :
    ∀ (c : BaseErrorCode) (m : String) (d : Option (List (String × JSValue))),
      (mkMcpError c m d).toResponse.content.length = 1
      ∧ (mkMcpError c m d).toResponse.content.map McpContent.type = ["text"]
      ∧ (mkMcpError c m d).toResponse.isError = true :=
  fun _ _ _ => ⟨rfl, rfl, rfl⟩

/-- C4: for every `McpError`, the object formed from its own
`code`/`message`/`details` fields is accepted by `ErrorSchema`, and
parses back to exactly those fields. -/
theorem roundtrip_shape_ok :
    ∀ e : McpError, parseErrorSchema (toJS e) = .ok ⟨e.code, e.message, e.details⟩ := by
  intro e
  cases e with
  | mk n c m d => cases d <;> cases c <;> rfl

/-- C5: a `code` outside the registry is rejected with the failure
reported on the `code` field; a missing `message` is rejected with the
failure reported on the `message` field even though `code` is valid;
and no value is partially accepted: every parse either succeeds or
fails with a non-empty issue list. -/
theorem validate_rejection_reporting :
    parseErrorSchema (.obj [("code", .str "NOPE"), ("message", .str "x")])
        = .error [⟨["code"], "invalid_enum_value"⟩]
    ∧ parseErrorSchema (.obj [("code", .str "TIMEOUT")])
        = .error [⟨["message"], "invalid_type"⟩]
    ∧ (∀ v : JSValue,
        (∃ r, parseErrorSchema v = .ok r)
        ∨ (∃ issues, parseErrorSchema v = .error issues ∧ issues ≠ [])) := by
  refine ⟨rfl, rfl, fun v => ?_⟩
  cases hp : parseErrorSchema v with
  | ok r => exact .inl ⟨r, rfl⟩
  | error issues => exact .inr ⟨issues, rfl, parse_error_nonempty v issues hp⟩

/-- C6: `toResponse` is a deterministic pure function of the error's
`code`, `message` and `details` fields alone: two errors agreeing on
those fields (even if they differ in any other state, such as the
inherited `name`) render to identical responses, so repeated calls on a
fixed instance are byte-identical. -/
theorem render_deterministic :
    ∀ e₁ e₂ : McpError, e₁.code = e₂.code → e₁.message = e₂.message →
      e₁.details = e₂.details → e₁.toResponse = e₂.toResponse := by
  intro e₁ e₂ h1 h2 h3
  cases e₁
  cases e₂
  cases h1
  cases h2
  cases h3
  rfl

/-- C6, witness: two instances agreeing on code/message/details but
with different `name` state render identically. -/
theorem render_deterministic_witness :
    McpError.toResponse ⟨"McpError", .TIMEOUT, "t", none⟩
      = McpError.toResponse ⟨"Other", .TIMEOUT, "t", none⟩ :=
  render_deterministic ⟨"McpError", .TIMEOUT, "t", none⟩ ⟨"Other", .TIMEOUT, "t", none⟩
    rfl rfl rfl

/-- C7: construction is total — `mkMcpError` succeeds on every code,
message and optional details and stores exactly those fields — and
rendering is total on serializable details: the top-level
serialization of an object always produces a string (never the
`undefined`/failure branch), and `toResponse` always returns a
well-formed response. -/
theorem construct_render_total :
    (∀ (c : BaseErrorCode) (m : String) (d : Option (List (String × JSValue))),
      (mkMcpError c m d).code = c ∧ (mkMcpError c m d).message = m
        ∧ (mkMcpError c m d).details = d)
    ∧ (∀ fields : List (String × JSValue), (serialize "" (.obj fields)).isSome = true)
    ∧ (∀ e : McpError, e.toResponse.content.length = 1 ∧ e.toResponse.isError = true) :=
  ⟨fun _ _ _ => ⟨rfl, rfl, rfl⟩, fun _ => rfl, fun _ => ⟨rfl, rfl⟩⟩

/-- C8: frame property — rendering leaves the error unchanged: the
state-passing form of `toResponse` returns the object with `code`,
`message` and `details` equal to their pre-call values (the whole state
is unchanged), and its result is the pure rendering. -/
theorem render_frame :
    ∀ e : McpError,
      e.toResponseS.2 = e
      ∧ (e.toResponseS.2.code = e.code ∧ e.toResponseS.2.message = e.message
          ∧ e.toResponseS.2.details = e.details)
      ∧ e.toResponseS.1 = e.toResponse :=
  fun _ => ⟨rfl, ⟨rfl, rfl, rfl⟩, rfl⟩

/-- C9: with `details` equal to the empty mapping, the rendered text
still carries the Details block — it is
`Error [<code>]: <message>` + newline + `Details: \x7b\x7d` — because the
code branches on truthiness (presence) of `details`, not
non-emptiness. -/
theorem render_empty_details_block :
    ∀ (c : BaseErrorCode) (m : String),
      (mkMcpError c m (some [])).toResponse.content
        = [⟨"text", "Error [" ++ codeStr c ++ "]: " ++ m ++ "\nDetails: \x7b\x7d"⟩] := by
  intro c m
  rfl

/-- C10: extra unrecognized fields do not cause rejection: any object
whose `code` field is a registry string, whose `message` field is a
string, and whose `details` field is absent or a mapping, is accepted
no matter what other fields it carries and wherever they sit, and the
parse result holds only the schema fields `code`, `message` and (if
present) `details` — the extras are stripped. -/
theorem validate_extra_fields :
    ∀ (fs : List (String × JSValue)) (c : BaseErrorCode) (m : String)
      (d : Option (List (String × JSValue))),
      List.lookup "code" fs = some (.str (codeStr c)) →
      List.lookup "message" fs = some (.str m) →
      List.lookup "details" fs = Option.map (fun dd => JSValue.obj dd) d →
      parseErrorSchema (.obj fs) = .ok ⟨c, m, d⟩ := by
  intro fs c m d hc hm hd
  cases d <;>
    simp [parseErrorSchema, hc, hm, hd, parseCodeField, codeOfString_codeStr,
      parseMessageField, parseDetailsField]

/-- C10, witness: a payload with an extra `hint` field is accepted and
the extra field is stripped from the parse result, both without a
`details` field and with one present. -/
theorem validate_extra_fields_witness :
    parseErrorSchema (.obj [("code", .str "TIMEOUT"),
        ("message", .str "deadline exceeded"), ("hint", .str "x")])
      = .ok ⟨.TIMEOUT, "deadline exceeded", none⟩
    ∧ parseErrorSchema (.obj [("code", .str "TIMEOUT"),
        ("message", .str "deadline exceeded"),
        ("details", .obj [("retryAfterMs", .num 500)]), ("hint", .str "x")])
      = .ok ⟨.TIMEOUT, "deadline exceeded", some [("retryAfterMs", .num 500)]⟩ :=
  ⟨validate_extra_fields [("code", .str "TIMEOUT"),
      ("message", .str "deadline exceeded"), ("hint", .str "x")]
      .TIMEOUT "deadline exceeded" none rfl rfl rfl,
   validate_extra_fields [("code", .str "TIMEOUT"),
      ("message", .str "deadline exceeded"),
      ("details", .obj [("retryAfterMs", .num 500)]), ("hint", .str "x")]
      .TIMEOUT "deadline exceeded" (some [("retryAfterMs", .num 500)]) rfl rfl rfl⟩

end McpErrors
